import Mathlib

/-!
Verification of the multiflag accumulator (package multiflag, multiflag.go).

The Go type `Value` accumulates repeated uses of a command-line flag.  Its
methods (`String`, `Set`, `IsBoolFlag`, `Args`, `NArg`) are embedded below as
state-passing functions `Value → result × Value`: the second component is the
post-state of the receiver, so that frame conditions (a method not mutating
the receiver) are provable statements rather than artifacts of the embedding.

Registration with the flag package (`flag.Var` / `FlagSet.Var`) is modelled by
an explicit registrar state `FlagSet`: a heap of `Value`s addressed by `Ref`,
plus a list of flag registrations `(name, ref, usage)`.  The constructors
`newString` / `newBool` follow multiflag.go lines 113-141: allocate one
`Value`, register the canonical name, then register each alias with usage text
computed by the alias-usage hook, all bound to the same reference.

The global mutable hook `AliasUsage` (multiflag.go line 175) is modelled by a
`World` carrying the current hook alongside the registrar, with the hook
override `World.setAliasUsage` and construction `World.construct` as explicit
state transitions.
-/

namespace Multiflag

/-- Embedding of the Go struct `Value` (multiflag.go lines 88-92):
`args` are the collected flag arguments, `val` is the default value shown in
help, `isBool` denotes whether the Value represents a boolean value. -/
structure Value where
  args : List String
  val : String
  isBool : Bool
deriving Repr, DecidableEq

/-- Method `String` (lines 96-98), lowercased since the capital name would
shadow the `String` type: returns `v.val`; receiver unchanged. -/
def Value.string (v : Value) : String × Value := (v.val, v)

/-- Method `Set` (lines 102-105): appends `s` to `v.args` and returns `nil`
(the Go `error` result is `Option String`, `none` standing for `nil`). -/
def Value.Set (v : Value) (s : String) : Option String × Value :=
  (none, { v with args := v.args ++ [s] })

/-- Method `IsBoolFlag` (line 109): returns `v.isBool`; receiver unchanged. -/
def Value.IsBoolFlag (v : Value) : Bool × Value := (v.isBool, v)

/-- Method `Args` (lines 157-163): empty array when `isBool`, else the
collected arguments; receiver unchanged. -/
def Value.Args (v : Value) : List String × Value :=
  if v.isBool then ([], v) else (v.args, v)

/-- Method `NArg` (lines 166-168): length of the collected arguments;
receiver unchanged. -/
def Value.NArg (v : Value) : Nat × Value := (v.args.length, v)

/-- Iterated `Set`: the receiver state after calling `Set` once per element of
`xs`, in order (the error results, always `none`, are discarded). -/
def Value.setAll (v : Value) (xs : List String) : Value :=
  xs.foldl (fun acc s => (acc.Set s).2) v

/-- Type of the alias usage hook (multiflag.go line 171, `AliasUsageFunc`). -/
def AliasUsageFunc := String → String → String

/-- Default value of the global variable `AliasUsage` (lines 175-177):
returns `"Alias for "` concatenated with the canonical name. -/
def AliasUsage : AliasUsageFunc := fun orig _alias => "Alias for " ++ orig

/-- Heap reference: index of a `Value` in the registrar's store. -/
abbrev Ref := Nat

/-- Registrar state standing for the flag package: a store of allocated
`Value`s and the list of registrations `(flag name, bound value, usage)`. -/
structure FlagSet where
  store : List Value
  flags : List (String × Ref × String)
deriving Repr, DecidableEq

/-- Registrar with no allocations and no registered flags. -/
def FlagSet.empty : FlagSet := ⟨[], []⟩

/-- Embedding of `flag.Var` / `FlagSet.Var`: records a registration binding
`name` (with usage text `usage`) to the value referenced by `r`. -/
def FlagSet.Var (fs : FlagSet) (r : Ref) (name usage : String) : FlagSet :=
  { fs with flags := fs.flags ++ [(name, r, usage)] }

/-- The fresh `Value` allocated by `newString` (line 114): `&Value{val: value}`,
so collected arguments empty and `isBool` false. -/
def newValue (value : String) : Value := { args := [], val := value, isBool := false }

/-- The state of a counting accumulator right after `newBool` ran: same as
`newValue` but with `isBool` set. -/
def boolValue (value : String) : Value := { args := [], val := value, isBool := true }

/-- Replaces the element at index `n` by its image under `f` (identity when
the index is out of range); used to model mutation through a pointer. -/
def modifyNth (f : Value → Value) : Nat → List Value → List Value
  | _, [] => []
  | 0, v :: vs => f v :: vs
  | n + 1, v :: vs => v :: modifyNth f n vs

/-- Embedding of `newString` (lines 113-123): allocate `&Value{val: value}`,
register the canonical `name` with `usage`, then register every alias with
usage text `hook name alias`, all bound to the same new reference.  Returns
the updated registrar and the reference to the new accumulator. -/
def newString (hook : AliasUsageFunc) (fs : FlagSet) (name value usage : String)
    (aliases : List String) : FlagSet × Ref :=
  let r := fs.store.length
  let fs1 : FlagSet := { fs with store := fs.store ++ [newValue value] }
  let fs2 := fs1.Var r name usage
  let fs3 := aliases.foldl (fun acc a => acc.Var r a (hook name a)) fs2
  (fs3, r)

/-- Embedding of `newBool` (lines 137-141): run `newString`, then set
`isBool := true` on the allocated value (through its reference, matching the
Go pointer write `v.isBool = true` after registration). -/
def newBool (hook : AliasUsageFunc) (fs : FlagSet) (name value usage : String)
    (aliases : List String) : FlagSet × Ref :=
  let p := newString hook fs name value usage aliases
  ({ p.1 with store := modifyNth (fun v => { v with isBool := true }) p.2 p.1.store }, p.2)

/-- Resolves a flag name to the reference it was registered with (first
registration wins; the real flag package forbids duplicates). -/
def FlagSet.lookup (fs : FlagSet) (n : String) : Option Ref :=
  (fs.flags.find? (fun e => e.1 = n)).map (fun e => e.2.1)

/-- The flag package dispatching one occurrence of flag `n` with argument
`arg`: calls `Set arg` on the bound value; no-op for an unknown flag. -/
def FlagSet.setFlag (fs : FlagSet) (n arg : String) : FlagSet :=
  match fs.lookup n with
  | some r => { fs with store := modifyNth (fun v => (v.Set arg).2) r fs.store }
  | none => fs

/-- The value currently stored at reference `r`, when allocated. -/
def FlagSet.valueAt (fs : FlagSet) (r : Ref) : Option Value := fs.store[r]?

/-- Process state for the global hook: the current `AliasUsage` function and
the registrar. -/
structure World where
  aliasUsage : AliasUsageFunc
  fs : FlagSet

/-- Overriding the global `AliasUsage` variable. -/
def World.setAliasUsage (w : World) (f : AliasUsageFunc) : World :=
  { w with aliasUsage := f }

/-- Constructing an accumulator under the current global hook: runs
`newString` with the hook as it is now. -/
def World.construct (w : World) (name value usage : String)
    (aliases : List String) : World × Ref :=
  let p := newString w.aliasUsage w.fs name value usage aliases
  ({ w with fs := p.1 }, p.2)

end Multiflag

namespace Multiflag

/-! ### Helper lemmas about iterated Set -/

theorem setAll_nil (v : Value) : v.setAll [] = v := rfl

theorem setAll_cons (v : Value) (x : String) (xs : List String) :
    v.setAll (x :: xs) = ((v.Set x).2).setAll xs := rfl

theorem setAll_args (v : Value) (xs : List String) :
    (v.setAll xs).args = v.args ++ xs := by
  induction xs generalizing v with
  | nil => simp [setAll_nil]
  | cons x xs ih => rw [setAll_cons, ih]; simp [Value.Set]

theorem setAll_val (v : Value) (xs : List String) :
    (v.setAll xs).val = v.val := by
  induction xs generalizing v with
  | nil => rfl
  | cons x xs ih => rw [setAll_cons, ih]; rfl

theorem setAll_isBool (v : Value) (xs : List String) :
    (v.setAll xs).isBool = v.isBool := by
  induction xs generalizing v with
  | nil => rfl
  | cons x xs ih => rw [setAll_cons, ih]; rfl

/-! ### Helper lemmas about registration -/

theorem foldl_Var_flags (hook : AliasUsageFunc) (name : String) (r : Ref)
    (as : List String) (fs : FlagSet) :
    (as.foldl (fun acc a => acc.Var r a (hook name a)) fs).flags
      = fs.flags ++ as.map (fun a => (a, r, hook name a)) := by
  induction as generalizing fs with
  | nil => simp
  | cons a as ih =>
    rw [List.foldl_cons, ih]
    simp [FlagSet.Var]

theorem foldl_Var_store (hook : AliasUsageFunc) (name : String) (r : Ref)
    (as : List String) (fs : FlagSet) :
    (as.foldl (fun acc a => acc.Var r a (hook name a)) fs).store = fs.store := by
  induction as generalizing fs with
  | nil => rfl
  | cons a as ih =>
    rw [List.foldl_cons, ih]
    rfl

theorem newString_fst (hook : AliasUsageFunc) (fs : FlagSet)
    (name value usage : String) (aliases : List String) :
    (newString hook fs name value usage aliases).1
      = aliases.foldl (fun acc a => acc.Var fs.store.length a (hook name a))
          (({ fs with store := fs.store ++ [newValue value] } : FlagSet).Var
            fs.store.length name usage) := rfl

theorem newString_snd (hook : AliasUsageFunc) (fs : FlagSet)
    (name value usage : String) (aliases : List String) :
    (newString hook fs name value usage aliases).2 = fs.store.length := rfl

theorem newString_flags (hook : AliasUsageFunc) (fs : FlagSet)
    (name value usage : String) (aliases : List String) :
    ((newString hook fs name value usage aliases).1).flags
      = fs.flags ++ (name, fs.store.length, usage)
          :: aliases.map (fun a => (a, fs.store.length, hook name a)) := by
  rw [newString_fst, foldl_Var_flags]
  simp [FlagSet.Var]

theorem newString_store (hook : AliasUsageFunc) (fs : FlagSet)
    (name value usage : String) (aliases : List String) :
    ((newString hook fs name value usage aliases).1).store
      = fs.store ++ [newValue value] := by
  rw [newString_fst, foldl_Var_store]
  rfl

theorem modifyNth_append_singleton (f : Value → Value) (l : List Value) (x : Value) :
    modifyNth f l.length (l ++ [x]) = l ++ [f x] := by
  induction l with
  | nil => rfl
  | cons y ys ih => simp [modifyNth, ih]

theorem newBool_flags (hook : AliasUsageFunc) (fs : FlagSet)
    (name value usage : String) (aliases : List String) :
    ((newBool hook fs name value usage aliases).1).flags
      = ((newString hook fs name value usage aliases).1).flags := rfl

theorem newBool_store (hook : AliasUsageFunc) (fs : FlagSet)
    (name value usage : String) (aliases : List String) :
    ((newBool hook fs name value usage aliases).1).store
      = fs.store ++ [boolValue value] := by
  show modifyNth _ _ ((newString hook fs name value usage aliases).1).store = _
  rw [newString_store]
  have hr : (newString hook fs name value usage aliases).2 = fs.store.length := rfl
  rw [hr, modifyNth_append_singleton]
  rfl

end Multiflag

namespace Multiflag

/-! ### Lookup lemmas: every flag registered by a single construction from an
empty registrar resolves to reference 0 -/

theorem flags_ref_zero (hook : AliasUsageFunc) (name value usage : String)
    (aliases : List String) (e : String × Ref × String)
    (he : e ∈ ((newString hook FlagSet.empty name value usage aliases).1).flags) :
    e.2.1 = 0 := by
  rw [newString_flags] at he
  simp [FlagSet.empty] at he
  rcases he with rfl | ⟨x, _, rfl⟩ <;> rfl

theorem lookup_newString_empty (hook : AliasUsageFunc) (name value usage : String)
    (aliases : List String) (a : String) (ha : a = name ∨ a ∈ aliases) :
    ((newString hook FlagSet.empty name value usage aliases).1).lookup a = some 0 := by
  have hmem : ∃ x ∈ ((newString hook FlagSet.empty name value usage aliases).1).flags,
      x.1 = a := by
    rcases ha with rfl | ha
    · refine ⟨(a, 0, usage), ?_, rfl⟩
      rw [newString_flags]
      simp [FlagSet.empty]
    · refine ⟨(a, 0, hook name a), ?_, rfl⟩
      rw [newString_flags]
      simp [FlagSet.empty]
      exact Or.inr ⟨a, ha, rfl, rfl⟩
  have hsome :
      (((newString hook FlagSet.empty name value usage aliases).1).flags.find?
        (fun e => e.1 = a)).isSome := by
    rw [List.find?_isSome]
    obtain ⟨x, hx, hxa⟩ := hmem
    exact ⟨x, hx, by simp [hxa]⟩
  obtain ⟨e, he⟩ := Option.isSome_iff_exists.mp hsome
  have h0 := flags_ref_zero hook name value usage aliases e (List.mem_of_find?_eq_some he)
  unfold FlagSet.lookup
  rw [he]
  simp [h0]

end Multiflag

namespace Multiflag

theorem World_construct_fst (w : World) (name value usage : String)
    (aliases : List String) :
    (w.construct name value usage aliases).1
      = ⟨w.aliasUsage, (newString w.aliasUsage w.fs name value usage aliases).1⟩ := rfl

/-- Claim C1: for every collecting-mode accumulator (constructed by
String/StringSet, which store the fresh value `newValue value` in the
registrar) and every sequence of Set calls with arguments `xs`, Args returns
exactly `xs` in order and NArg returns the length of `xs`. -/
theorem string_accumulator_collects_in_order (hook : AliasUsageFunc)
    (name value usage : String) (aliases : List String) (xs : List String) :
    ((newString hook FlagSet.empty name value usage aliases).1).valueAt
        ((newString hook FlagSet.empty name value usage aliases).2) = some (newValue value) ∧
    ((newValue value).setAll xs).Args.1 = xs ∧
    ((newValue value).setAll xs).NArg.1 = xs.length := by
  refine ⟨?_, ?_, ?_⟩
  · rw [newString_snd]
    simp [FlagSet.valueAt, newString_store, FlagSet.empty]
  · simp [Value.Args, setAll_isBool, newValue, setAll_args]
  · simp [Value.NArg, setAll_args, newValue]

/-- Claim C2: for every counting-mode accumulator (constructed by
Bool/BoolSet, which store `boolValue value` in the registrar) and every list
of Set-call arguments `xs` (including the empty list), NArg returns the number
of Set calls and Args returns the empty sequence, whatever the arguments. -/
theorem bool_accumulator_counts (hook : AliasUsageFunc)
    (name value usage : String) (aliases : List String) (xs : List String) :
    ((newBool hook FlagSet.empty name value usage aliases).1).valueAt
        ((newBool hook FlagSet.empty name value usage aliases).2) = some (boolValue value) ∧
    ((boolValue value).setAll xs).NArg.1 = xs.length ∧
    ((boolValue value).setAll xs).Args.1 = [] := by
  refine ⟨?_, ?_, ?_⟩
  · have h2 : (newBool hook FlagSet.empty name value usage aliases).2 = 0 := rfl
    rw [h2]
    simp [FlagSet.valueAt, newBool_store, FlagSet.empty]
  · simp [Value.NArg, setAll_args, boolValue]
  · simp [Value.Args, setAll_isBool, boolValue]

/-- Claim C3: construction with aliases binds the canonical name and every
alias to the same accumulator, so dispatching a Set through any alias has the
identical effect on the registrar state (hence on Args and NArg) as
dispatching through the canonical name, for both collecting and counting
constructors. -/
theorem alias_set_same_effect (hook : AliasUsageFunc)
    (name value usage arg a : String) (aliases : List String) (ha : a ∈ aliases) :
    ((newString hook FlagSet.empty name value usage aliases).1).setFlag a arg
      = ((newString hook FlagSet.empty name value usage aliases).1).setFlag name arg ∧
    ((newBool hook FlagSet.empty name value usage aliases).1).setFlag a arg
      = ((newBool hook FlagSet.empty name value usage aliases).1).setFlag name arg := by
  have hs_a : ((newString hook FlagSet.empty name value usage aliases).1).lookup a
      = some 0 := lookup_newString_empty hook name value usage aliases a (Or.inr ha)
  have hs_n : ((newString hook FlagSet.empty name value usage aliases).1).lookup name
      = some 0 := lookup_newString_empty hook name value usage aliases name (Or.inl rfl)
  have hb_a : ((newBool hook FlagSet.empty name value usage aliases).1).lookup a
      = some 0 := hs_a
  have hb_n : ((newBool hook FlagSet.empty name value usage aliases).1).lookup name
      = some 0 := hs_n
  constructor
  · simp [FlagSet.setFlag, hs_a, hs_n]
  · simp [FlagSet.setFlag, hb_a, hb_n]

/-- Witness for alias_set_same_effect: the sample driver's trace flag with
alias "t", one occurrence with argument "parse". -/
theorem alias_set_same_effect_witness :
    ("t" ∈ ["t"]) ∧
    (((newString AliasUsage FlagSet.empty "trace" "none" "Trace program sections"
          ["t"]).1).setFlag "t" "parse"
        = ((newString AliasUsage FlagSet.empty "trace" "none" "Trace program sections"
            ["t"]).1).setFlag "trace" "parse" ∧
      ((newBool AliasUsage FlagSet.empty "trace" "none" "Trace program sections"
          ["t"]).1).setFlag "t" "parse"
        = ((newBool AliasUsage FlagSet.empty "trace" "none" "Trace program sections"
            ["t"]).1).setFlag "trace" "parse") :=
  ⟨by simp, alias_set_same_effect AliasUsage "trace" "none" "Trace program sections"
    "parse" "t" ["t"] (by simp)⟩

/-- Claim C4: the length of the collected-arguments field grows by exactly one
per Set call (so it equals the number of Set calls since construction, in
either mode), and none of the other operations (Args, NArg, String,
IsBoolFlag) mutates the accumulator. -/
theorem collected_length_invariant (v : Value) (xs : List String) :
    (v.setAll xs).args.length = v.args.length + xs.length ∧
    (v.Args).2 = v ∧ (v.NArg).2 = v ∧ (v.string).2 = v ∧ (v.IsBoolFlag).2 = v := by
  refine ⟨by simp [setAll_args], ?_, rfl, rfl, rfl⟩
  unfold Value.Args
  split <;> rfl

/-- Claim C5: Set never fails — it returns the nil error and its only effect
is appending the argument to the collected sequence, leaving the display value
and the mode flag unchanged. -/
theorem set_never_fails (v : Value) (s : String) :
    (v.Set s).1 = none ∧ (v.Set s).2.args = v.args ++ [s] ∧
    (v.Set s).2.val = v.val ∧ (v.Set s).2.isBool = v.isBool :=
  ⟨rfl, rfl, rfl, rfl⟩

/-- Claim C6: IsBoolFlag returns true for accumulators stored by the counting
constructors and false for those stored by the collecting constructors, and
the answer is unchanged by any number of subsequent Set calls. -/
theorem isBoolFlag_by_mode (hook : AliasUsageFunc)
    (name value usage : String) (aliases : List String) (xs : List String) :
    ((newBool hook FlagSet.empty name value usage aliases).1).valueAt 0
        = some (boolValue value) ∧
    ((newString hook FlagSet.empty name value usage aliases).1).valueAt 0
        = some (newValue value) ∧
    ((boolValue value).setAll xs).IsBoolFlag.1 = true ∧
    ((newValue value).setAll xs).IsBoolFlag.1 = false := by
  refine ⟨?_, ?_, ?_, ?_⟩
  · simp [FlagSet.valueAt, newBool_store, FlagSet.empty]
  · simp [FlagSet.valueAt, newString_store, FlagSet.empty]
  · simp [Value.IsBoolFlag, setAll_isBool, boolValue]
  · simp [Value.IsBoolFlag, setAll_isBool, newValue]

/-- Claim C7: the String method always returns the default value supplied at
construction, unchanged by any number of Set calls, in both modes. -/
theorem string_returns_default (value : String) (xs : List String) :
    ((newValue value).setAll xs).string.1 = value ∧
    ((boolValue value).setAll xs).string.1 = value := by
  constructor <;> simp [Value.string, setAll_val, newValue, boolValue]

/-- Claim C8: alias usage text is generated eagerly at construction.  In the
scenario [construct under hook h0, override hook to h1, construct again], the
first accumulator's alias registrations carry texts computed by h0 and the
second accumulator's carry texts computed by h1: the override affects only
accumulators constructed after it. -/
theorem alias_usage_eager (h0 h1 : AliasUsageFunc)
    (n1 v1 u1 n2 v2 u2 : String) (as1 as2 : List String) :
    ((((World.mk h0 FlagSet.empty).construct n1 v1 u1 as1).1.setAliasUsage h1).construct
        n2 v2 u2 as2).1.fs.flags
      = ((n1, 0, u1) :: as1.map (fun a => (a, 0, h0 n1 a)))
        ++ ((n2, 1, u2) :: as2.map (fun a => (a, 1, h1 n2 a))) := by
  rw [World_construct_fst, World_construct_fst]
  simp only [World.setAliasUsage]
  rw [newString_flags, newString_flags, newString_store]
  simp [FlagSet.empty]

/-- Claim C9: the default alias-description hook returns "Alias for "
concatenated with the canonical name, and its result does not depend on the
alias argument. -/
theorem aliasUsage_default_spec (orig a b : String) :
    AliasUsage orig a = "Alias for " ++ orig ∧ AliasUsage orig a = AliasUsage orig b :=
  ⟨rfl, rfl⟩

/-- Claim C10: every read accessor is effect-free — Args, NArg, String and
IsBoolFlag all leave the accumulator state unchanged. -/
theorem accessors_effect_free (v : Value) :
    (v.Args).2 = v ∧ (v.NArg).2 = v ∧ (v.string).2 = v ∧ (v.IsBoolFlag).2 = v := by
  refine ⟨?_, rfl, rfl, rfl⟩
  unfold Value.Args
  split <;> rfl

end Multiflag
